import Mathlib

set_option maxRecDepth 40000

/-
Verification development for the kadht repository (a Kademlia DHT node).

Shallow embedding conventions:
  - Rust u128 / u64 / u16 / u8 values are Nat, with explicit bounds or
    reductions modulo 2 ^ w at the points where the Rust code can overflow.
  - Rust String is modelled by the list of its UTF-8 bytes (ByteStr below);
    String::from_utf8 is modelled by a full UTF-8 validity check.
  - VecDeque and Vec are Lean lists; the front of the deque is the head.
  - Fallible operations (indexing that can panic, shifts that can overflow)
    return Option; none models a Rust panic.
  - Loops of the source that are not structurally terminating are modelled
    with an explicit fuel argument; running out of fuel is reported as a
    distinct outcome, never conflated with normal termination.
  - Sources of nondeterminism (the rng that draws transaction ids, Instant
    based staleness) are externalized as inputs: a stream of transaction
    ids, and oracle lists of the transaction ids that are considered stale.
-/

namespace Kadht

/-- KEY_SIZE from base.rs: the number of bits in a key. -/
def KEY_SIZE : Nat := 128

/-- IP addresses as stored in a SocketAddr: four octets, or sixteen bytes. -/
inductive IpAddr where
  | v4 (o1 o2 o3 o4 : Nat)
  | v6 (octets : List Nat)
deriving DecidableEq

/-- A UDP socket address: ip and port. -/
structure SocketAddr where
  ip : IpAddr
  port : Nat
deriving DecidableEq

/-- Node from base.rs: an id (BitKey, a u128 modelled as Nat) and an address.
Rust PartialEq for Node compares ids only; the model writes that comparison
out explicitly at each use site. -/
structure Node where
  id : Nat
  udpAddr : SocketAddr
deriving DecidableEq

/-- BitKey.distance: the xor metric on keys. -/
def distance (a b : Nat) : Nat := a ^^^ b

/-- Node.distance from base.rs: distance of the ids. -/
def Node.distance (a b : Node) : Nat := Kadht.distance a.id b.id

/-- Binary logarithm with explicit fuel; with fuel at least the bit width it
agrees with Nat.log2 on every machine-width value (log2Fuel_eq below), and
being structurally recursive it evaluates inside the kernel. -/
def log2Fuel : Nat → Nat → Nat
  | 0, _ => 0
  | fuel + 1, n => if 2 ≤ n then log2Fuel fuel (n / 2) + 1 else 0

/-- u128::leading_zeros of a value below 2 ^ 128. -/
def leadingZeros128 (d : Nat) : Nat :=
  if d = 0 then 128 else 127 - log2Fuel 128 d

/-- u128::trailing_zeros of a value below 2 ^ 128: the exponent of the lowest
set bit, computed from the low-bit mask n &&& (n ^^^ (n - 1)). -/
def trailingZeros128 (n : Nat) : Nat :=
  if n = 0 then 128 else log2Fuel 128 (n &&& (n ^^^ (n - 1)))

/-- KBucketInsert from routing.rs: result of a bucket insert. -/
inductive KBucketInsert where
  | Inserted
  | Ping (n : Node)
deriving DecidableEq

/-- KBucket from routing.rs: max_size, the waiting stack (a Vec, pushed and
popped at the back) and the data deque (front at the head of the list). -/
structure KBucket where
  maxSize : Nat
  waiting : List Node
  data : List Node
deriving DecidableEq

/-- KBucket::new. -/
def KBucket.new (maxSize : Nat) : KBucket :=
  { maxSize := maxSize, waiting := [], data := [] }

/-- KBucket::insert. The Rust code first removes an existing entry with the
same id (Node PartialEq is id equality), then either pushes to the back of
the deque, or pushes onto the waiting stack and reports the front of the
deque for a ping. Indexing data[0] on an empty deque is a panic, modelled as
none; it can only happen when max_size = 0. -/
def KBucket.insert (b : KBucket) (item : Node) : Option (KBucket × KBucketInsert) :=
  let data1 := b.data.eraseP (fun x => decide (x.id = item.id))
  if data1.length < b.maxSize then
    some ({ b with data := data1 ++ [item] }, KBucketInsert.Inserted)
  else
    match data1 with
    | [] => none
    | front :: _ =>
      some ({ b with waiting := b.waiting ++ [item] }, KBucketInsert.Ping front)

/-- KBucket::remove: delete the entry with the given id, if present, and in
that case pop the top of the waiting stack (the back of the Vec) onto the
back of the deque. -/
def KBucket.remove (b : KBucket) (id : Nat) : KBucket :=
  if b.data.any (fun x => decide (x.id = id)) then
    let data1 := b.data.eraseP (fun x => decide (x.id = id))
    match b.waiting.getLast? with
    | some popped => { b with data := data1 ++ [popped], waiting := b.waiting.dropLast }
    | none => { b with data := data1 }
  else b

/-- Stable insertion into a list sorted ascending by xor distance to the
target: an element is placed after every element whose key is not larger. -/
def insertByDistance (target : Nat) (a : Node) : List Node → List Node
  | [] => [a]
  | b :: rest =>
    if Kadht.distance b.id target ≤ Kadht.distance a.id target then
      b :: insertByDistance target a rest
    else a :: b :: rest

/-- Stable sort by xor distance to the target, modelling
sort_by_cached_key (a stable sort) in KBucket::k_closest. -/
def sortByDistance (target : Nat) : List Node → List Node
  | [] => []
  | a :: rest => insertByDistance target a (sortByDistance target rest)

/-- KBucket::k_closest: append the up-to-k closest bucket entries to the
buffer in ascending distance order; return the new buffer and the count
min(len, k) that the Rust function reports. -/
def KBucket.kClosest (b : KBucket) (buf : List Node) (target k : Nat) :
    List Node × Nat :=
  (buf ++ (sortByDistance target b.data).take k, min b.data.length k)

/-- RoutingTable from routing.rs: the node of this instance and KEY_SIZE
buckets. -/
structure RoutingTable where
  thisNode : Node
  buckets : List KBucket
deriving DecidableEq

/-- RoutingTable::new: KEY_SIZE fresh buckets of the given size. -/
def RoutingTable.new (thisNode : Node) (bucketSize : Nat) : RoutingTable :=
  { thisNode := thisNode, buckets := List.replicate KEY_SIZE (KBucket.new bucketSize) }

/-- RoutingTable::this_node_id. -/
def RoutingTable.thisNodeId (t : RoutingTable) : Nat := t.thisNode.id

/-- RoutingTable::insert: self-insert is a no-op reported as Inserted;
otherwise delegate to the bucket indexed by the leading-zero count of the
distance. Out-of-range indexing would be a Rust panic, modelled as none. -/
def RoutingTable.insert (t : RoutingTable) (node : Node) :
    Option (RoutingTable × KBucketInsert) :=
  if t.thisNode.id = node.id then some (t, KBucketInsert.Inserted)
  else
    let i := leadingZeros128 (Kadht.distance t.thisNode.id node.id)
    match t.buckets.get? i with
    | none => none
    | some b =>
      match b.insert node with
      | none => none
      | some (b1, res) => some ({ t with buckets := t.buckets.set i b1 }, res)

/-- RoutingTable::remove: no-op for the id of this node; otherwise remove
from the bucket selected by the leading-zero count of the distance. -/
def RoutingTable.remove (t : RoutingTable) (id : Nat) : Option RoutingTable :=
  if t.thisNode.id = id then some t
  else
    let i := leadingZeros128 (Kadht.distance t.thisNode.id id)
    match t.buckets.get? i with
    | none => none
    | some b => some { t with buckets := t.buckets.set i (b.remove id) }

/-- Outcome of a fuelled loop: normal exit, a Rust panic, or fuel exhaustion
(the loop was still running). -/
inductive LoopRes (α : Type) where
  | ok (a : α)
  | panicked
  | fuelOut
deriving DecidableEq

/-- LoopRes.isOk. -/
def LoopRes.isOk {α : Type} : LoopRes α → Bool
  | .ok _ => true
  | _ => false

/-- LoopRes.toOption: normal exit as some, panic and fuel exhaustion as none. -/
def LoopRes.toOption {α : Type} : LoopRes α → Option α
  | .ok a => some a
  | _ => none

/-- State of the first traversal loop in RoutingTable::k_closest: the
remaining distance word, the remaining count to take, and the output buffer. -/
structure Loop1State where
  distance : Nat
  toTake : Nat
  buf : List Node
deriving DecidableEq

/-- The first loop of RoutingTable::k_closest, exactly as written in
routing.rs: while distance is nonzero and there is room, take i =
leading_zeros(distance), pull from bucket i, then xor the distance with
1 <<< (KEY_SIZE - i). Note KEY_SIZE - i, not KEY_SIZE - 1 - i: for i ≥ 1
this toggles the bit one position above the leading set bit, and for i = 0
the shift amount is 128, which overflows the u128 shift — a Rust panic,
modelled as panicked. -/
def loop1 (buckets : List KBucket) (target : Nat) :
    Nat → Loop1State → LoopRes Loop1State
  | 0, _ => .fuelOut
  | fuel + 1, st =>
    if st.distance ≠ 0 ∧ st.toTake ≠ 0 then
      let i := leadingZeros128 st.distance
      let bkt := (buckets.getD i (KBucket.new 0))
      let (buf1, n) := bkt.kClosest st.buf target st.toTake
      let toTake1 := st.toTake - n
      let shift := KEY_SIZE - i
      if shift < 128 then
        loop1 buckets target fuel
          { distance := st.distance ^^^ 2 ^ shift, toTake := toTake1, buf := buf1 }
      else .panicked
    else .ok st

/-- State of the second traversal loop of RoutingTable::k_closest. -/
structure Loop2State where
  nDistance : Nat
  toTake : Nat
  buf : List Node
deriving DecidableEq

/-- The second loop of RoutingTable::k_closest: walk the set bits of the
complemented distance from least significant upward, pulling from bucket
KEY_SIZE - 1 - i and clearing bit i. -/
def loop2 (buckets : List KBucket) (target : Nat) :
    Nat → Loop2State → LoopRes Loop2State
  | 0, _ => .fuelOut
  | fuel + 1, st =>
    if st.nDistance ≠ 0 ∧ st.toTake ≠ 0 then
      let i := trailingZeros128 st.nDistance
      let bkt := (buckets.getD (KEY_SIZE - 1 - i) (KBucket.new 0))
      let (buf1, n) := bkt.kClosest st.buf target st.toTake
      let toTake1 := st.toTake - n
      if i < 128 then
        loop2 buckets target fuel
          { nDistance := st.nDistance ^^^ 2 ^ i, toTake := toTake1, buf := buf1 }
      else .panicked
    else .ok st

/-- RoutingTable::k_closest, with fuel for both traversal loops: compute the
distance to the target and its 128-bit complement, run the first loop, push
this node if room remains, then run the second loop. -/
def RoutingTable.kClosestFuel (t : RoutingTable) (fuel target k : Nat) :
    LoopRes (List Node) :=
  let d := Kadht.distance t.thisNode.id target
  let nD := d ^^^ (2 ^ 128 - 1)
  match loop1 t.buckets target fuel { distance := d, toTake := k, buf := [] } with
  | .panicked => .panicked
  | .fuelOut => .fuelOut
  | .ok st1 =>
    let (buf2, toTake2) :=
      if st1.toTake ≠ 0 then (st1.buf ++ [t.thisNode], st1.toTake - 1)
      else (st1.buf, st1.toTake)
    match loop2 t.buckets target fuel
        { nDistance := nD, toTake := toTake2, buf := buf2 } with
    | .panicked => .panicked
    | .fuelOut => .fuelOut
    | .ok st2 => .ok st2.buf

/-- A Rust String, modelled by the list of its UTF-8 bytes. -/
abbrev ByteStr : Type := List Nat

/-- Whether a byte is a UTF-8 continuation byte (0x80 to 0xBF). -/
def isCont (c : Nat) : Bool := 128 ≤ c && c ≤ 191

/-- Full UTF-8 validity of a byte sequence, modelling the check inside
String::from_utf8. -/
def utf8Valid : List Nat → Bool
  | [] => true
  | b :: rest =>
    if b < 128 then utf8Valid rest
    else if b < 194 then false
    else if b < 224 then
      match rest with
      | c1 :: r => isCont c1 && utf8Valid r
      | [] => false
    else if b < 240 then
      match rest with
      | c1 :: c2 :: r =>
        (if b = 224 then 160 ≤ c1 && c1 ≤ 191
         else if b = 237 then 128 ≤ c1 && c1 ≤ 159
         else isCont c1) && isCont c2 && utf8Valid r
      | _ => false
    else if b < 245 then
      match rest with
      | c1 :: c2 :: c3 :: r =>
        (if b = 240 then 144 ≤ c1 && c1 ≤ 191
         else if b = 244 then 128 ≤ c1 && c1 ≤ 143
         else isCont c1) && isCont c2 && isCont c3 && utf8Valid r
      | _ => false
    else false

/-- ParseError from messages.rs. -/
inductive ParseError where
  | InsufficientLength
  | InvalidString
  | UnknownMessageType
deriving DecidableEq

/-- The result of a fallible parse, modelling Result<A, ParseError>. -/
inductive PResult (α : Type) where
  | ok (a : α)
  | err (e : ParseError)
deriving DecidableEq

/-- PResult.bind, the question-mark operator of the Rust parsers. -/
def PResult.bind {α β : Type} : PResult α → (α → PResult β) → PResult β
  | .ok a, f => f a
  | .err e, _ => .err e

/-- Big-endian bytes of a number, fixed width; models the byte loops of
write_bitkey and write_transaction_id (the value is reduced modulo
2 ^ (8 * width), exactly as the machine integer is). -/
def natToBe : Nat → Nat → List Nat
  | 0, _ => []
  | w + 1, n => natToBe w (n / 256) ++ [n % 256]

/-- A number from big-endian bytes, modelling uN::from_be_bytes. -/
def beToNat (l : List Nat) : Nat := l.foldl (fun acc b => acc * 256 + b) 0

/-- try_bitkey_from: the first 16 bytes as a big-endian u128. -/
def tryBitkeyFrom (data : List Nat) : PResult Nat :=
  if data.length < 16 then .err .InsufficientLength
  else .ok (beToNat (data.take 16))

/-- try_string_from, exactly as written in messages.rs: read the length
prefix, check that at least that many bytes follow, but then convert the
WHOLE remaining slice (rest.into()) to a string; report length prefix + 1
as the consumed count. -/
def tryStringFrom (data : List Nat) : PResult (ByteStr × Nat) :=
  match data with
  | [] => .err .InsufficientLength
  | head :: rest =>
    if rest.length < head then .err .InsufficientLength
    else if utf8Valid rest then .ok (rest, head + 1)
    else .err .InvalidString

/-- The node-list parsing loop of try_nodes_from: read the announced number
of nodes, each as 16 id bytes, one ip-kind byte, 4 or 16 address bytes and a
big-endian port. -/
def tryNodesAux : Nat → List Nat → List Node → PResult (List Node)
  | 0, _, acc => .ok acc
  | n + 1, data, acc =>
    if data.length < 17 then .err .InsufficientLength
    else
      let id := beToNat (data.take 16)
      let ipType := data.getD 16 0
      let data1 := data.drop 17
      let ipLen := if ipType = 4 then 4 else 16
      if data1.length < ipLen + 2 then .err .InsufficientLength
      else
        let ip :=
          if ipType = 4 then
            IpAddr.v4 (data1.getD 0 0) (data1.getD 1 0) (data1.getD 2 0) (data1.getD 3 0)
          else IpAddr.v6 (data1.take 16)
        let port := (data1.getD ipLen 0) * 256 + data1.getD (ipLen + 1) 0
        tryNodesAux n (data1.drop (ipLen + 2))
          (acc ++ [{ id := id, udpAddr := { ip := ip, port := port } }])

/-- try_nodes_from: a count byte followed by that many nodes. -/
def tryNodesFrom (data : List Nat) : PResult (List Node) :=
  match data with
  | [] => .err .InsufficientLength
  | head :: rest => tryNodesAux head rest []

/-- TransactionID try_from: the first 8 bytes as a big-endian u64. -/
def tryTransactionIdFrom (data : List Nat) : PResult Nat :=
  if data.length < 8 then .err .InsufficientLength
  else .ok (beToNat (data.take 8))

/-- Header from messages.rs: sender node id and transaction id. -/
structure Header where
  nodeId : Nat
  transactionId : Nat
deriving DecidableEq

/-- Header try_from: 24 bytes, split 16 for the node id and 8 for the
transaction id. -/
def tryHeaderFrom (data : List Nat) : PResult Header :=
  if data.length < 24 then .err .InsufficientLength
  else
    PResult.bind (tryBitkeyFrom (data.take 16)) fun nodeId =>
      PResult.bind (tryTransactionIdFrom (data.drop 16)) fun txId =>
        .ok { nodeId := nodeId, transactionId := txId }

/-- RPCPayload from messages.rs. -/
inductive RPCPayload where
  | Ping
  | PingResp
  | FindValue (key : ByteStr)
  | FindValueResp (val : ByteStr)
  | FindValueNodes (nodes : List Node)
  | FindNode (id : Nat)
  | FindNodeResp (nodes : List Node)
  | Store (key val : ByteStr)
  | StoreResp
deriving DecidableEq

/-- RPCPayload try_from: dispatch on the tag byte. -/
def tryPayloadFrom (data : List Nat) : PResult RPCPayload :=
  match data with
  | [] => .err .InsufficientLength
  | msgType :: rest =>
    if msgType = 1 then .ok RPCPayload.Ping
    else if msgType = 2 then .ok RPCPayload.PingResp
    else if msgType = 3 then
      PResult.bind (tryBitkeyFrom rest) fun id => .ok (RPCPayload.FindNode id)
    else if msgType = 4 then
      PResult.bind (tryNodesFrom rest) fun nodes => .ok (RPCPayload.FindNodeResp nodes)
    else if msgType = 5 then
      PResult.bind (tryStringFrom rest) fun kc =>
        PResult.bind (tryStringFrom (rest.drop kc.2)) fun vc =>
          .ok (RPCPayload.Store kc.1 vc.1)
    else if msgType = 6 then .ok RPCPayload.StoreResp
    else if msgType = 7 then
      PResult.bind (tryStringFrom rest) fun kc => .ok (RPCPayload.FindValue kc.1)
    else if msgType = 8 then
      PResult.bind (tryNodesFrom rest) fun nodes => .ok (RPCPayload.FindValueNodes nodes)
    else if msgType = 9 then
      PResult.bind (tryStringFrom rest) fun vc => .ok (RPCPayload.FindValueResp vc.1)
    else .err .UnknownMessageType

/-- Message from messages.rs: a header and a payload. -/
structure Message where
  header : Header
  payload : RPCPayload
deriving DecidableEq

/-- Message try_from: parse the header, then the payload from byte 24 on. -/
def tryMessageFrom (data : List Nat) : PResult Message :=
  PResult.bind (tryHeaderFrom data) fun header =>
    PResult.bind (tryPayloadFrom (data.drop 24)) fun payload =>
      .ok { header := header, payload := payload }

/-- write_string: a one-byte length prefix (the length as u8, so reduced
modulo 256) followed by every byte of the string. -/
def writeString (s : ByteStr) : List Nat := (List.length s % 256) :: s

/-- One node of write_nodes: 16 id bytes, the ip-kind byte (4 or 6), the
address octets and the big-endian port. -/
def writeNode (n : Node) : List Nat :=
  natToBe 16 n.id ++
    (match n.udpAddr.ip with
     | IpAddr.v4 o1 o2 o3 o4 => 4 :: [o1, o2, o3, o4]
     | IpAddr.v6 octets => 6 :: octets) ++
    natToBe 2 n.udpAddr.port

/-- write_nodes: a count byte (the length as u8) then each node in turn. -/
def writeNodes (nodes : List Node) : List Nat :=
  (nodes.length % 256) :: nodes.flatMap writeNode

/-- Message::write: the frame that the serializer leaves in buf[0..count]:
16 node-id bytes, 8 transaction-id bytes, the tag byte, then the body. -/
def Message.write (m : Message) : List Nat :=
  natToBe 16 m.header.nodeId ++ natToBe 8 m.header.transactionId ++
    match m.payload with
    | RPCPayload.Ping => [1]
    | RPCPayload.PingResp => [2]
    | RPCPayload.FindNode id => 3 :: natToBe 16 id
    | RPCPayload.FindNodeResp nodes => 4 :: writeNodes nodes
    | RPCPayload.Store key val => 5 :: (writeString key ++ writeString val)
    | RPCPayload.StoreResp => [6]
    | RPCPayload.FindValue key => 7 :: writeString key
    | RPCPayload.FindValueNodes nodes => 8 :: writeNodes nodes
    | RPCPayload.FindValueResp val => 9 :: writeString val

/-- The bucket constant K of server.rs. -/
def K : Nat := 20

/-- ToServerMsg from server.rs: operator commands. -/
inductive ToServerMsg where
  | Store (key val : ByteStr)
  | Get (key : ByteStr)
deriving DecidableEq

/-- FromServerMsg from server.rs: operator replies. -/
inductive FromServerMsg where
  | StoreResp
  | GetResp (val : Option ByteStr)
deriving DecidableEq

/-- Lookup of an association-list map, modelling HashMap::get. -/
def alistFind {α β : Type} [DecidableEq α] (m : List (α × β)) (k : α) : Option β :=
  (m.find? (fun p => decide (p.1 = k))).map (fun p => p.2)

/-- Update of an association-list map, modelling HashMap::insert: the new
binding replaces any previous binding of the key. -/
def alistInsert {α β : Type} [DecidableEq α] (m : List (α × β)) (k : α) (v : β) :
    List (α × β) :=
  (k, v) :: m.filter (fun p => decide (p.1 ≠ k))

/-- Removal from an association-list map, modelling HashMap::remove: whether
the key was present, and the map without it. -/
def alistRemove {α β : Type} [DecidableEq α] (m : List (α × β)) (k : α) :
    Bool × List (α × β) :=
  (m.any (fun p => decide (p.1 = k)), m.filter (fun p => decide (p.1 ≠ k)))

/-- TransactionTable from server.rs, with the Instant deadlines externalized:
a map from transaction id to the remote node id recorded with it
(TransactionTable::insert stores header.node_id). Staleness is decided by an
oracle list of expired transaction ids supplied to removeStale. -/
abbrev TransactionTable := List (Nat × Nat)

/-- TransactionTable::insert: record transaction id to node id of a header. -/
def ttInsert (t : TransactionTable) (h : Header) : TransactionTable :=
  alistInsert t h.transactionId h.nodeId

/-- TransactionTable::contains. -/
def ttContains (t : TransactionTable) (tx : Nat) : Bool :=
  t.any (fun p => decide (p.1 = tx))

/-- TransactionTable::remove: whether it was present, and the table without
the entry. -/
def ttRemove (t : TransactionTable) (tx : Nat) : Bool × TransactionTable :=
  alistRemove t tx

/-- TransactionTable::remove_stale: drop every entry whose transaction id the
expiry oracle lists, pushing the recorded node ids; returns the pushed keys
and the surviving table. -/
def ttRemoveStale (t : TransactionTable) (stale : List Nat) :
    List Nat × TransactionTable :=
  ((t.filter (fun p => stale.contains p.1)).map (fun p => p.2),
   t.filter (fun p => decide (¬ stale.contains p.1)))

/-- QueryIntention from server.rs. -/
inductive QueryIntention where
  | Store (key val : ByteStr)
  | Get (key : ByteStr)
deriving DecidableEq

/-- QueryIntention::key_to_find: a Get carries the key to find, a Store does
not. -/
def QueryIntention.keyToFind : QueryIntention → Option ByteStr
  | .Store _ _ => none
  | .Get key => some key

/-- QueryStatus from server.rs. -/
inductive QueryStatus where
  | Empty
  | Started
  | Finished
deriving DecidableEq

/-- NodeQuery from server.rs: a shortlist entry. -/
structure NodeQuery where
  node : Node
  status : QueryStatus
  distance : Nat
deriving DecidableEq

/-- NodeQuery::new: status Empty, distance of the node id to the target. -/
def NodeQuery.new (node : Node) (target : Nat) : NodeQuery :=
  { node := node, status := QueryStatus.Empty, distance := Kadht.distance node.id target }

/-- A default shortlist entry, for the out-of-range reads of the binary
search model (never reached on the indices the search visits). -/
def defaultNodeQuery : NodeQuery :=
  { node := { id := 0, udpAddr := { ip := IpAddr.v4 0 0 0 0, port := 0 } },
    status := QueryStatus.Empty, distance := 0 }

/-- Result of slice::binary_search_by: the index of a matching element, or
the insertion point. -/
inductive SearchRes where
  | found (i : Nat)
  | notFound (i : Nat)
deriving DecidableEq

/-- The classic binary-search loop of slice::binary_search_by, specialised to
comparing stored distances against a probe distance; fuelled, with fuel at
least the list length plus one so the fuel never runs out. -/
def bsearchAux (l : List NodeQuery) (d : Nat) : Nat → Nat → Nat → SearchRes
  | 0, left, _ => .notFound left
  | fuel + 1, left, right =>
    if left < right then
      let mid := left + (right - left) / 2
      let dm := (l.getD mid defaultNodeQuery).distance
      if dm < d then bsearchAux l d fuel (mid + 1) right
      else if d < dm then bsearchAux l d fuel left mid
      else .found mid
    else .notFound left

/-- Query from server.rs: the current lookup. -/
structure Query where
  target : Nat
  intention : QueryIntention
  closest : List NodeQuery
  transactions : TransactionTable
  finalK : Bool
deriving DecidableEq

/-- Query::find_node: binary search of the shortlist by distance of the
given key to the target. -/
def Query.findNode (q : Query) (key : Nat) : SearchRes :=
  bsearchAux q.closest (Kadht.distance key q.target)
    (q.closest.length + 1) 0 q.closest.length

/-- Query::add_node: insert a newly learned node into the shortlist at its
sorted position, dropping the far end beyond K entries; a node whose
distance is already present is rejected. -/
def Query.addNode (q : Query) (node : Node) : Query × Bool :=
  match q.findNode node.id with
  | .notFound i =>
    let closest1 := q.closest.insertIdx i (NodeQuery.new node q.target)
    let closest2 := if K < closest1.length then closest1.dropLast else closest1
    ({ q with closest := closest2 }, true)
  | .found _ => (q, false)

/-- Query::update_status: set the status of the shortlist entry found by id. -/
def Query.updateStatus (q : Query) (target : Nat) (s : QueryStatus) : Query :=
  match q.findNode target with
  | .found i =>
    { q with closest := q.closest.set i { (q.closest.getD i defaultNodeQuery) with status := s } }
  | .notFound _ => q

/-- Query::remove: delete the shortlist entry found by id. -/
def Query.removeKey (q : Query) (key : Nat) : Query :=
  match q.findNode key with
  | .found i => { q with closest := q.closest.eraseIdx i }
  | .notFound _ => q

/-- Query::get_closest: the first shortlist entry still Empty. -/
def Query.getClosest (q : Query) : Option Node :=
  (q.closest.find? (fun nq => decide (nq.status = QueryStatus.Empty))).map
    (fun nq => nq.node)

/-- Query::all_done: every shortlist entry is Finished. -/
def Query.allDone (q : Query) : Bool :=
  q.closest.all (fun nq => decide (nq.status = QueryStatus.Finished))

/-- ServerHandle from server.rs, restricted to its pure state: the routing
table, the local key store, the current lookup and the keep-alive
transaction table. The socket, rng and scratch buffer are externalized. -/
structure ServerHandle where
  table : RoutingTable
  keyStore : List (ByteStr × ByteStr)
  query : Option Query
  keepAlives : TransactionTable
deriving DecidableEq

/-- Message::response as server.rs calls it: a reply that carries the
incoming header through unchanged, with the reply payload. -/
def Message.response (h : Header) (payload : RPCPayload) : Message :=
  { header := h, payload := payload }

/-- Message::create with the rng externalized: the caller supplies the fresh
transaction id drawn from the stream. -/
def Message.create (tx nodeId : Nat) (payload : RPCPayload) : Message :=
  { header := { nodeId := nodeId, transactionId := tx }, payload := payload }

/-- Drawing from the externalized rng stream of transaction ids. -/
def genTx : List Nat → Nat × List Nat
  | [] => (0, [])
  | t :: rest => (t, rest)

/-- ServerHandle::continue_query: unwrap the current lookup (a panic, hence
none, if there is none), mark the chosen node Started, build a FindValue or
FindNode request according to the intention, record its transaction and send
it to the node. -/
def continueQuery (st : ServerHandle) (txs : List Nat) (node : Node) :
    Option (ServerHandle × List Nat × (Message × SocketAddr)) :=
  match st.query with
  | none => none
  | some q =>
    let q1 := q.updateStatus node.id QueryStatus.Started
    let payload :=
      match q1.intention.keyToFind with
      | some key => RPCPayload.FindValue key
      | none => RPCPayload.FindNode q1.target
    let (tx, txs1) := genTx txs
    let m := Message.create tx st.table.thisNode.id payload
    let q2 := { q1 with transactions := ttInsert q1.transactions m.header }
    some ({ st with query := some q2 }, txs1, (m, node.udpAddr))

/-- The trailing loop of ServerHandle::handle_nodes: contact each collected
node in turn with continue_query. -/
def contactAll : ServerHandle → List Nat → List Node →
    Option (ServerHandle × List Nat × List (Message × SocketAddr))
  | st, txs, [] => some (st, txs, [])
  | st, txs, n :: rest =>
    match continueQuery st txs n with
    | none => none
    | some (st1, txs1, m) =>
      match contactAll st1 txs1 rest with
      | none => none
      | some (st2, txs2, ms) => some (st2, txs2, m :: ms)

/-- ServerHandle::handle_nodes: if no lookup is running, nothing happens; if
the response's transaction is unknown to the lookup it is silently ignored;
otherwise absorb the nodes into the shortlist, mark the responder Finished,
and progress the lookup as in server.rs. -/
def handleNodes (st : ServerHandle) (txs : List Nat) (header : Header)
    (nodes : List Node) :
    Option (ServerHandle × List Nat × List (Message × SocketAddr)) :=
  match st.query with
  | none => some (st, txs, [])
  | some q =>
    if ttContains q.transactions header.transactionId then
      let q1 := { q with transactions := (ttRemove q.transactions header.transactionId).2 }
      let step := nodes.foldl
        (fun (p : Query × Bool) n =>
          let r := p.1.addNode n
          (r.1, r.2 || p.2))
        (q1, false)
      let q3 := step.1.updateStatus header.nodeId QueryStatus.Finished
      let added := step.2
      if added then
        match q3.getClosest with
        | some next => contactAll { st with query := some q3 } txs [next]
        | none => some ({ st with query := none }, txs, [])
      else if ¬ q3.finalK then
        let q4 := { q3 with finalK := true }
        let contacts :=
          (q4.closest.filter (fun nq => decide (nq.status = QueryStatus.Empty))).map
            (fun nq => nq.node)
        contactAll { st with query := some q4 } txs contacts
      else if q3.allDone then some ({ st with query := none }, txs, [])
      else some ({ st with query := some q3 }, txs, [])
    else some (st, txs, [])

/-- ServerHandle::handle_message: first unconditionally insert the sender
into the routing table, emitting a keep-alive Ping if the bucket asks for a
probe; then dispatch on the payload exactly as server.rs does. The returned
list holds the messages sent on the socket. -/
def handleMessage (fromHash : ByteStr → Nat) (fuel : Nat) (st : ServerHandle)
    (txs : List Nat) (msg : Message) (src : SocketAddr) :
    Option (ServerHandle × List Nat × List (Message × SocketAddr)) :=
  let node : Node := { id := msg.header.nodeId, udpAddr := src }
  match st.table.insert node with
  | none => none
  | some (table1, ins) =>
    let st1 := { st with table := table1 }
    let afterIns : ServerHandle × List Nat × List (Message × SocketAddr) :=
      match ins with
      | KBucketInsert.Ping toPing =>
        let (tx, txs1) := genTx txs
        let pingMsg := Message.create tx table1.thisNode.id RPCPayload.Ping
        ({ st1 with keepAlives := ttInsert st1.keepAlives pingMsg.header },
         txs1, [(pingMsg, toPing.udpAddr)])
      | KBucketInsert.Inserted => (st1, txs, [])
    let st2 := afterIns.1
    let txs2 := afterIns.2.1
    let sent0 := afterIns.2.2
    match msg.payload with
    | RPCPayload.Ping =>
      some (st2, txs2, sent0 ++ [(Message.response msg.header RPCPayload.PingResp, src)])
    | RPCPayload.PingResp =>
      some ({ st2 with keepAlives := (ttRemove st2.keepAlives msg.header.transactionId).2 },
        txs2, sent0)
    | RPCPayload.FindValue key =>
      (match alistFind st2.keyStore key with
       | none =>
         match (st2.table.kClosestFuel fuel (fromHash key) K).toOption with
         | none => none
         | some nodes =>
           some (st2, txs2,
             sent0 ++ [(Message.response msg.header (RPCPayload.FindValueNodes nodes), src)])
       | some v =>
         some (st2, txs2,
           sent0 ++ [(Message.response msg.header (RPCPayload.FindValueResp v), src)]))
    | RPCPayload.FindValueResp _ =>
      let st3 :=
        match st2.query with
        | some q =>
          if ttContains q.transactions msg.header.transactionId then
            { st2 with query := none }
          else st2
        | none => st2
      some (st3, txs2, sent0)
    | RPCPayload.FindValueNodes nodes =>
      (match handleNodes st2 txs2 msg.header nodes with
       | none => none
       | some (st3, txs3, sent1) => some (st3, txs3, sent0 ++ sent1))
    | RPCPayload.FindNode id =>
      (match (st2.table.kClosestFuel fuel id K).toOption with
       | none => none
       | some nodes =>
         some (st2, txs2,
           sent0 ++ [(Message.response msg.header (RPCPayload.FindNodeResp nodes), src)]))
    | RPCPayload.FindNodeResp nodes =>
      (match handleNodes st2 txs2 msg.header nodes with
       | none => none
       | some (st3, txs3, sent1) => some (st3, txs3, sent0 ++ sent1))
    | RPCPayload.Store k v =>
      some ({ st2 with keyStore := alistInsert st2.keyStore k v }, txs2,
        sent0 ++ [(Message.response msg.header RPCPayload.StoreResp, src)])
    | RPCPayload.StoreResp =>
      some ({ st2 with keepAlives := (ttRemove st2.keepAlives msg.header.transactionId).2 },
        txs2, sent0)

/-- ServerHandle::handle_client: exactly one reply per received command; Get
reads the local key store, Store acknowledges without touching any state
(server.rs ignores both arguments); no pending command does nothing. -/
def handleClient (st : ServerHandle) (cmd : Option ToServerMsg) :
    ServerHandle × List FromServerMsg :=
  match cmd with
  | some (ToServerMsg.Get key) =>
    (st, [FromServerMsg.GetResp (alistFind st.keyStore key)])
  | some (ToServerMsg.Store _ _) => (st, [FromServerMsg.StoreResp])
  | none => (st, [])

/-- Removal of a list of ids from the routing table in turn, modelling the
final loop of ServerHandle::remove_stale. -/
def removeAllFromTable : RoutingTable → List Nat → Option RoutingTable
  | t, [] => some t
  | t, id :: rest =>
    match t.remove id with
    | none => none
    | some t1 => removeAllFromTable t1 rest

/-- ServerHandle::remove_stale, with staleness externalized as two oracle
lists of expired transaction ids (one for the lookup's table, one for the
keep-alive table). Note that server.rs reuses one buffer for both sweeps
without clearing it, so the routing-table removal at the end also receives
the node ids swept out of the lookup's transaction table. -/
def removeStaleStep (st : ServerHandle) (staleQ staleKA : List Nat)
    (txs : List Nat) :
    Option (ServerHandle × List Nat × List (Message × SocketAddr)) :=
  let firstStage :
      Option (ServerHandle × List Nat × List (Message × SocketAddr) × List Nat) :=
    match st.query with
    | none => some (st, txs, [], [])
    | some q =>
      let sweep := ttRemoveStale q.transactions staleQ
      let q1 := sweep.1.foldl (fun qq key => qq.removeKey key)
        { q with transactions := sweep.2 }
      if q1.allDone then some ({ st with query := none }, txs, [], sweep.1)
      else if ¬ q1.finalK then
        match q1.getClosest with
        | some node =>
          (match continueQuery { st with query := some q1 } txs node with
           | none => none
           | some (st2, txs2, m) => some (st2, txs2, [m], sweep.1))
        | none => some ({ st with query := some q1 }, txs, [], sweep.1)
      else some ({ st with query := some q1 }, txs, [], sweep.1)
  match firstStage with
  | none => none
  | some (st1, txs1, sent1, buf1) =>
    let sweepKA := ttRemoveStale st1.keepAlives staleKA
    match removeAllFromTable st1.table (buf1 ++ sweepKA.1) with
    | none => none
    | some table1 =>
      some ({ st1 with keepAlives := sweepKA.2, table := table1 }, txs1, sent1)

/-- One iteration of the run_server loop: the optional decoded inbound
datagram, the staleness oracles for this tick, and the optional operator
command polled at the end. -/
structure LoopInput where
  inbound : Option (Message × SocketAddr)
  staleQ : List Nat
  staleKA : List Nat
  cmd : Option ToServerMsg
deriving DecidableEq

/-- One tick of the run_server loop: handle an inbound message if one
arrived (a timeout or a parse error leaves the state alone), sweep stale
transactions, then poll the operator channel. -/
def loopIter (fromHash : ByteStr → Nat) (fuel : Nat) (st : ServerHandle)
    (txs : List Nat) (inp : LoopInput) :
    Option (ServerHandle × List Nat × List (Message × SocketAddr) × List FromServerMsg) :=
  let afterMsg :=
    match inp.inbound with
    | some ms => handleMessage fromHash fuel st txs ms.1 ms.2
    | none => some (st, txs, [])
  match afterMsg with
  | none => none
  | some (st1, txs1, sent1) =>
    match removeStaleStep st1 inp.staleQ inp.staleKA txs1 with
    | none => none
    | some (st2, txs2, sent2) =>
      let client := handleClient st2 inp.cmd
      some (client.1, txs2, sent1 ++ sent2, client.2)

/-- The run_server loop over a finite list of iterations, collecting every
message sent on the socket and every reply sent to the operator. -/
def runLoop (fromHash : ByteStr → Nat) (fuel : Nat) :
    ServerHandle → List Nat → List LoopInput →
    Option (ServerHandle × List (Message × SocketAddr) × List FromServerMsg)
  | st, _, [] => some (st, [], [])
  | st, txs, inp :: rest =>
    match loopIter fromHash fuel st txs inp with
    | none => none
    | some (st1, txs1, sent, out) =>
      match runLoop fromHash fuel st1 txs1 rest with
      | none => none
      | some (st2, sents, outs) => some (st2, sent ++ sents, out ++ outs)

/-- The server state that run_server builds before entering its loop: a
fresh routing table around this node, an empty key store, no lookup, no
keep-alives. -/
def initState (thisNode : Node) : ServerHandle :=
  { table := RoutingTable.new thisNode K, keyStore := [], query := none,
    keepAlives := [] }

/-- Whether a payload is a lookup request that only the lookup engine
initiates. -/
def isLookupRequest : RPCPayload → Bool
  | RPCPayload.FindNode _ => true
  | RPCPayload.FindValue _ => true
  | _ => false

/-- A fixed socket address for concrete inputs. -/
def addr0 : SocketAddr := { ip := IpAddr.v4 0 0 0 0, port := 10 }

/-- A node with the given id at the fixed address, as the repository's own
tests build them. -/
def mkNode (id : Nat) : Node := { id := id, udpAddr := addr0 }

/-- Sequential KBucket::insert of a list of nodes, collecting the results. -/
def insertAll : KBucket → List Node → Option (KBucket × List KBucketInsert)
  | b, [] => some (b, [])
  | b, n :: rest =>
    match b.insert n with
    | none => none
    | some (b1, r) =>
      match insertAll b1 rest with
      | none => none
      | some (b2, rs) => some (b2, r :: rs)

/-- The operation sequence that drives a bucket of capacity 2 into holding a
duplicated id: fill with ids 0 and 1, insert id 2 twice while full (stacking
it twice on the waiting stack), then remove 0 and 1 (each removal pops one
waiting copy of id 2 into the bucket). -/
def c3Run : Option KBucket :=
  match (KBucket.new 2).insert (mkNode 0) with
  | none => none
  | some (b, _) =>
    match b.insert (mkNode 1) with
    | none => none
    | some (b, _) =>
      match b.insert (mkNode 2) with
      | none => none
      | some (b, _) =>
        match b.insert (mkNode 2) with
        | none => none
        | some (b, _) => some ((b.remove 0).remove 1)

/-- The empty routing table of a node with id 0, as run_server would build
it. -/
def table0 : RoutingTable := RoutingTable.new (mkNode 0) 20

/-- A fixed stand-in for BitKey::from_hash (the SHA-1 digest is an external
collaborator; no claim depends on its values). -/
def hash0 : ByteStr → Nat := fun _ => 0

/-- A minimal server state: local node id 0, no buckets needed, empty key
store, no lookup, no keep-alives. -/
def stC5 : ServerHandle :=
  { table := { thisNode := mkNode 0, buckets := [] }, keyStore := [],
    query := none, keepAlives := [] }

/-- A lookup with Get intention whose transaction table holds transaction 5
issued to the node with id 99. -/
def qC6 : Query :=
  { target := 0, intention := QueryIntention.Get [107], closest := [],
    transactions := [(5, 99)], finalK := false }

/-- A server state with the lookup qC6 active. -/
def stC6 : ServerHandle :=
  { table := { thisNode := mkNode 0, buckets := [] }, keyStore := [],
    query := some qC6, keepAlives := [] }

/-- An inbound FindValueResp carrying the value 0x76 under transaction 5. -/
def msgC6 : Message :=
  { header := { nodeId := 0, transactionId := 5 },
    payload := RPCPayload.FindValueResp [118] }

/-- The state stC6 with its lookup terminated. -/
def stC6after : ServerHandle := { stC6 with query := none }

instance :
    DecidableEq
      (ServerHandle × List Nat × List (Message × SocketAddr) × List FromServerMsg) :=
  fun a b => instDecidableEqProd a b

/-- A full bucket of capacity 2 whose oldest (front) entry is the node with
id 2 and whose other entry has id 3. -/
def bC7 : KBucket :=
  { maxSize := 2, waiting := [], data := [mkNode 2, mkNode 3] }

/-- A server state whose routing table holds the full bucket bC7 at index
126 (the bucket of ids 2 and 3 relative to the local id 0), and whose
keep-alive table maps transaction 9 to the oldest entry's id 2. -/
def stC7 : ServerHandle :=
  { table := { thisNode := mkNode 0,
               buckets := (List.replicate 128 (KBucket.new 2)).set 126 bC7 },
    keyStore := [], query := none, keepAlives := [(9, 2)] }

/-- The PingResp of the probed oldest peer: sender id 2, transaction 9. -/
def msgC7 : Message :=
  { header := { nodeId := 2, transactionId := 9 }, payload := RPCPayload.PingResp }

/-- What handling msgC7 actually leaves behind: the keep-alive entry is
gone, and inside bucket 126 the responding peer with id 2 has moved from
the front to the back. -/
def stC7after : ServerHandle :=
  { stC7 with
    table := { thisNode := mkNode 0,
               buckets := ((List.replicate 128 (KBucket.new 2)).set 126 bC7).set 126
                 { bC7 with data := [mkNode 3, mkNode 2] } },
    keepAlives := [] }

end Kadht

namespace Kadht

/-- log2Fuel agrees with Nat.log2 whenever the fuel covers the bit length of
the argument. -/
theorem log2Fuel_eq : ∀ (fuel n : Nat), n < 2 ^ fuel → log2Fuel fuel n = Nat.log2 n
  | 0, n, h => by
    have hn : n = 0 := by simpa using h
    subst hn
    rw [Nat.log2]
    rfl
  | fuel + 1, n, h => by
    unfold log2Fuel
    rw [Nat.log2]
    split
    · rw [log2Fuel_eq fuel (n / 2) (by
        have h2 : 2 ^ (fuel + 1) = 2 ^ fuel * 2 := by rw [Nat.pow_succ]
        omega)]
    · rfl

/-- Claim C3: the claim states that after any interleaving of inserts and
removes from an empty bucket the active list never holds two entries with
the same id. The code violates it: filling a capacity-2 bucket with ids 0
and 1, inserting id 2 twice while the bucket is full and then removing 0
and 1 leaves the active list holding id 2 twice, because KBucket::remove
pops waiting entries without checking whether their id already entered the
bucket through an earlier pop. -/
theorem c3_duplicate_in_active :
    c3Run = some { maxSize := 2, waiting := [], data := [mkNode 2, mkNode 2] } := by
  decide

/-- Claim C2: the claim states that decoding the frame written for any
well-formed message recovers it structurally, in particular both fields of
a Store. The code violates it: try_string_from converts the whole remaining
slice to the string instead of the announced prefix, so decoding the frame
of Store with key A and value B yields the key A, 0x01, B — the value's
length byte and bytes are swallowed into the key. -/
theorem c2_store_roundtrip_fails :
    tryMessageFrom (Message.write
        { header := { nodeId := 7, transactionId := 9 },
          payload := RPCPayload.Store [65] [66] }) =
      PResult.ok { header := { nodeId := 7, transactionId := 9 },
                   payload := RPCPayload.Store [65, 1, 66] [66] } ∧
    tryMessageFrom (Message.write
        { header := { nodeId := 7, transactionId := 9 },
          payload := RPCPayload.Store [65] [66] }) ≠
      PResult.ok { header := { nodeId := 7, transactionId := 9 },
                   payload := RPCPayload.Store [65] [66] } :=
  ⟨by decide, by decide⟩

/-- Claim C9: an operator Get is answered with exactly one GetResp carrying
the key store lookup: Some value when the key is mapped, None when it is
absent, never an error. -/
theorem c9_get_replies_with_local_lookup (st : ServerHandle) (key : ByteStr) :
    handleClient st (some (ToServerMsg.Get key)) =
      (st, [FromServerMsg.GetResp (alistFind st.keyStore key)]) := rfl

/-- Claim C5, amended: an operator Store is answered with exactly one
StoreResp, and the server state — the key store included — is left entirely
unchanged (server.rs ignores both arguments of the command). -/
theorem c5_store_acknowledges_without_writing (st : ServerHandle) (key val : ByteStr) :
    handleClient st (some (ToServerMsg.Store key val)) =
      (st, [FromServerMsg.StoreResp]) := rfl

/-- Claim C5, counterexample to the claim as stated: on the empty key store,
handling Store of key 0x61 and value 0x62 emits the single StoreResp but the
key store afterwards does not map the key to the value. -/
theorem c5_counterexample :
    handleClient stC5 (some (ToServerMsg.Store [97] [98])) = (stC5, [FromServerMsg.StoreResp]) ∧
    alistFind (handleClient stC5 (some (ToServerMsg.Store [97] [98]))).1.keyStore [97] ≠
      some [98] :=
  ⟨rfl, by decide⟩

/-- handle_nodes does nothing when no lookup is running. -/
theorem handleNodes_no_query (st : ServerHandle) (txs : List Nat) (header : Header)
    (nodes : List Node) (h : st.query = none) :
    handleNodes st txs header nodes = some (st, txs, []) := by
  unfold handleNodes
  rw [h]

/-- Claim C10: an inbound node-list response whose transaction id is not in
the current lookup's transaction table — including when no lookup is active
— leaves the whole server state unchanged and dispatches nothing. -/
theorem c10_unknown_tx_ignored (st : ServerHandle) (txs : List Nat) (header : Header)
    (nodes : List Node)
    (h : st.query = none ∨
      ∃ q, st.query = some q ∧ ttContains q.transactions header.transactionId = false) :
    handleNodes st txs header nodes = some (st, txs, []) := by
  rcases h with h | ⟨q, hq, hc⟩
  · exact handleNodes_no_query st txs header nodes h
  · unfold handleNodes
    rw [hq]
    simp [hc]

/-- Claim C10, witness: the empty server state with no lookup ignores a
FindNodeResp with transaction id 2. -/
theorem c10_witness :
    handleNodes stC5 [] { nodeId := 1, transactionId := 2 } [] = some (stC5, [], []) :=
  c10_unknown_tx_ignored stC5 [] { nodeId := 1, transactionId := 2 } [] (Or.inl rfl)

/-- Sequentially inserting fresh, pairwise distinct nodes into a bucket with
enough room appends them all, each reported as Inserted. -/
theorem insertAll_fresh : ∀ (ns : List Node) (b : KBucket),
    (∀ n ∈ ns, ∀ m ∈ b.data, m.id ≠ n.id) →
    ns.Pairwise (fun a c => a.id ≠ c.id) →
    b.data.length + ns.length ≤ b.maxSize →
    insertAll b ns =
      some ({ b with data := b.data ++ ns }, List.replicate ns.length KBucketInsert.Inserted)
  | [], b, _, _, _ => by simp [insertAll]
  | n :: rest, b, hfresh, hnodup, hlen => by
    have herase : b.data.eraseP (fun x => decide (x.id = n.id)) = b.data := by
      apply List.eraseP_of_forall_not
      intro a ha
      simpa using hfresh n (by simp) a ha
    have hlt : b.data.length < b.maxSize := by
      simp only [List.length_cons] at hlen
      omega
    have hrest := insertAll_fresh rest { b with data := b.data ++ [n] }
      (by
        intro x hx m hm
        rcases List.mem_append.mp hm with hm | hm
        · exact hfresh x (by simp [hx]) m hm
        · have : m = n := by simpa using hm
          subst this
          exact (List.pairwise_cons.mp hnodup).1 x hx)
      (List.pairwise_cons.mp hnodup).2
      (by simp at hlen ⊢; omega)
    simp only [insertAll, KBucket.insert, herase, if_pos hlt, hrest]
    simp [List.append_assoc, List.replicate_succ]

/-- Claim C8: inserting a list of pairwise distinct nodes whose length is the
capacity into an empty bucket returns Inserted every time and fills the
active list exactly with those nodes in order; one more insert with a fresh
id returns Ping carrying the first node that was inserted, leaving the
newcomer on the waiting stack. -/
theorem c8_bucket_capacity (cap : Nat) (ns : List Node) (x : Node)
    (hne : ns ≠ [])
    (hlen : ns.length = cap)
    (hnodup : ns.Pairwise (fun a c => a.id ≠ c.id))
    (hfresh : ∀ m ∈ ns, m.id ≠ x.id) :
    insertAll (KBucket.new cap) ns =
      some ({ maxSize := cap, waiting := [], data := ns },
        List.replicate cap KBucketInsert.Inserted) ∧
    KBucket.insert { maxSize := cap, waiting := [], data := ns } x =
      some ({ maxSize := cap, waiting := [x], data := ns },
        KBucketInsert.Ping (ns.head hne)) := by
  constructor
  · have h := insertAll_fresh ns (KBucket.new cap)
      (by intro a _ m hm; simp [KBucket.new] at hm)
      hnodup
      (by simp [KBucket.new, hlen])
    simpa [KBucket.new, hlen] using h
  · have herase : ns.eraseP (fun m => decide (m.id = x.id)) = ns := by
      apply List.eraseP_of_forall_not
      intro a ha
      simpa using hfresh a ha
    cases ns with
    | nil => exact absurd rfl hne
    | cons a l =>
      simp only [KBucket.insert, herase]
      rw [if_neg (by simp [hlen])]
      rfl

/-- Claim C8, witness: capacity 2, nodes with ids 0 and 1, then a fresh id
2: both inserts report Inserted, the active list is full, and the third
insert asks to ping the node with id 0. -/
theorem c8_witness :
    insertAll (KBucket.new 2) [mkNode 0, mkNode 1] =
      some ({ maxSize := 2, waiting := [], data := [mkNode 0, mkNode 1] },
        List.replicate 2 KBucketInsert.Inserted) ∧
    KBucket.insert { maxSize := 2, waiting := [], data := [mkNode 0, mkNode 1] } (mkNode 2) =
      some ({ maxSize := 2, waiting := [mkNode 2], data := [mkNode 0, mkNode 1] },
        KBucketInsert.Ping (mkNode 0)) :=
  c8_bucket_capacity 2 [mkNode 0, mkNode 1] (mkNode 2) (by decide) (by decide)
    (by decide) (by decide)

/-- Every bucket of a freshly built routing table is empty, whatever index
is read. -/
theorem replicate_bucket_data (i c : Nat) :
    ((List.replicate 128 (KBucket.new c)).getD i (KBucket.new 0)).data = [] := by
  rcases Nat.lt_or_ge i 128 with h | h
  · rw [List.getD_eq_getElem?_getD, List.getElem?_replicate, if_pos h]
    rfl
  · rw [List.getD_eq_getElem?_getD, List.getElem?_replicate, if_neg (by omega)]
    rfl

/-- On a routing table whose buckets are all empty, the first traversal loop
of k_closest can never exit normally when it starts from a nonzero distance
with one slot to fill: each iteration xors the distance with
2 ^ (log2 d + 1) — one bit above the leading set bit, which only grows the
distance — until the leading bit reaches position 127, where the shift
amount 128 overflows the u128 shift and the iteration panics. -/
theorem loop1_empty (c target : Nat) : ∀ (fuel d : Nat) (buf : List Node),
    d ≠ 0 → d < 2 ^ 128 →
    loop1 (List.replicate 128 (KBucket.new c)) target fuel
        { distance := d, toTake := 1, buf := buf } = LoopRes.panicked ∨
    loop1 (List.replicate 128 (KBucket.new c)) target fuel
        { distance := d, toTake := 1, buf := buf } = LoopRes.fuelOut
  | 0, d, buf, _, _ => Or.inr rfl
  | fuel + 1, d, buf, hne, hlt => by
    have hlog : log2Fuel 128 d = Nat.log2 d := log2Fuel_eq 128 d hlt
    have hs : Nat.log2 d ≤ 127 := by
      have := (Nat.log2_lt hne).mpr hlt
      omega
    have hlz : leadingZeros128 d = 127 - Nat.log2 d := by
      unfold leadingZeros128
      rw [if_neg hne, hlog]
    have hshift : KEY_SIZE - leadingZeros128 d = Nat.log2 d + 1 := by
      rw [hlz]
      show 128 - (127 - Nat.log2 d) = Nat.log2 d + 1
      omega
    unfold loop1
    rw [if_pos ⟨hne, one_ne_zero⟩]
    simp only [KBucket.kClosest, replicate_bucket_data, hshift, sortByDistance,
      List.take_nil, List.append_nil, List.length_nil, Nat.zero_min, Nat.sub_zero]
    by_cases hcase : Nat.log2 d + 1 < 128
    · rw [if_pos hcase]
      apply loop1_empty c target fuel
      · intro hzero
        have hd : d = 2 ^ (Nat.log2 d + 1) := Nat.xor_eq_zero.mp hzero
        have := Nat.lt_log2_self (n := d)
        omega
      · exact Nat.xor_lt_two_pow hlt
          (Nat.pow_lt_pow_right (by omega) hcase)
    · rw [if_neg hcase]
      exact Or.inl rfl

/-- Claim C6, amended: an inbound FindValueResp whose transaction id is in
the active lookup's transaction table terminates the lookup — the query
becomes None — but the carried value is discarded and nothing is sent to the
operator (handle_message has no path to the operator channel at all). -/
theorem c6_find_value_resp_terminates_lookup
    (fromHash : ByteStr → Nat) (fuel : Nat) (st st' : ServerHandle)
    (txs txs' : List Nat) (q : Query) (v : ByteStr) (msg : Message)
    (src : SocketAddr) (sent : List (Message × SocketAddr))
    (hq : st.query = some q)
    (hp : msg.payload = RPCPayload.FindValueResp v)
    (hc : ttContains q.transactions msg.header.transactionId = true)
    (hrun : handleMessage fromHash fuel st txs msg src = some (st', txs', sent)) :
    st'.query = none := by
  obtain ⟨⟨nid, tid⟩, payload⟩ := msg
  simp only at hp hc
  subst hp
  simp only [handleMessage] at hrun
  cases hins : st.table.insert { id := nid, udpAddr := src } with
  | none =>
    rw [hins] at hrun
    simp at hrun
  | some pr =>
    obtain ⟨t1, ins⟩ := pr
    rw [hins] at hrun
    cases ins <;>
      simp only [hq, hc, if_true, Option.some.injEq, Prod.mk.injEq] at hrun <;>
      obtain ⟨h1, -, -⟩ := hrun <;>
      rw [← h1]

/-- Claim C6, witness: in the concrete state stC6, handling msgC6 leaves a
state whose lookup is None. -/
theorem c6_witness : stC6after.query = none :=
  c6_find_value_resp_terminates_lookup hash0 0 stC6 stC6after [] [] qC6 [118]
    msgC6 addr0 [] rfl rfl (by decide) (by decide)

/-- Claim C6, counterexample to the claim as stated: one full event-loop
tick on the state stC6 with the inbound FindValueResp msgC6 terminates the
lookup but sends nothing at all to the operator — the list of FromServer
replies of the tick is empty, where the claim promises GetResp(Some value). -/
theorem c6_counterexample :
    loopIter hash0 0 stC6 []
        { inbound := some (msgC6, addr0), staleQ := [], staleKA := [], cmd := none } =
      some (stC6after, [], [], []) := by decide

/-- Claim C7, amended: when the bucket of the responding peer is full and
that peer sits at the front, an inbound PingResp from it removes the
transaction from the keep-alive table, but the bucket does not stay
untouched: the unconditional routing-table insert of every inbound sender
moves the peer from the front to the back of the active list (the bucket's
membership is unchanged). -/
theorem c7_ping_resp_moves_oldest_to_back
    (fromHash : ByteStr → Nat) (fuel : Nat) (st : ServerHandle) (txs : List Nat)
    (msg : Message) (src : SocketAddr) (b : KBucket) (p : Node) (rest : List Node)
    (hp : msg.payload = RPCPayload.PingResp)
    (hne : msg.header.nodeId ≠ st.table.thisNode.id)
    (hb : st.table.buckets.get?
        (leadingZeros128 (Kadht.distance st.table.thisNode.id msg.header.nodeId)) = some b)
    (hdata : b.data = p :: rest)
    (hpid : p.id = msg.header.nodeId)
    (hfull : b.data.length = b.maxSize) :
    handleMessage fromHash fuel st txs msg src =
      some ({ st with
              table := { thisNode := st.table.thisNode,
                         buckets := st.table.buckets.set
                           (leadingZeros128
                             (Kadht.distance st.table.thisNode.id msg.header.nodeId))
                           { b with data := rest ++ [{ id := msg.header.nodeId, udpAddr := src }] } },
              keepAlives := (ttRemove st.keepAlives msg.header.transactionId).2 },
        txs, []) := by
  obtain ⟨⟨nid, tid⟩, payload⟩ := msg
  simp only at hp hne hb hpid ⊢
  subst hp
  have hlt : rest.length < b.maxSize := by
    rw [hdata] at hfull
    simp only [List.length_cons] at hfull
    omega
  have herase : b.data.eraseP (fun x => decide (x.id = nid)) = rest := by
    rw [hdata]
    exact List.eraseP_cons_of_pos (by simp [hpid])
  have hins : st.table.insert { id := nid, udpAddr := src } =
      some ({ thisNode := st.table.thisNode,
              buckets := st.table.buckets.set
                (leadingZeros128 (Kadht.distance st.table.thisNode.id nid))
                { b with data := rest ++ [{ id := nid, udpAddr := src }] } },
        KBucketInsert.Inserted) := by
    simp only [RoutingTable.insert]
    rw [if_neg (fun h => hne h.symm)]
    simp only [hb, KBucket.insert, herase, if_pos hlt]
  simp only [handleMessage, hins]

/-- Claim C7, counterexample to the claim as stated: in the concrete state
stC7 the PingResp msgC7 from the oldest entry of the full bucket removes
the keep-alive transaction, but the resulting state is not the state where
only the keep-alive entry was removed — the bucket changed, with id 2 now
at the back. -/
theorem c7_counterexample :
    handleMessage hash0 0 stC7 [] msgC7 addr0 = some (stC7after, [], []) ∧
    stC7after ≠ { stC7 with keepAlives := (ttRemove stC7.keepAlives 9).2 } :=
  ⟨by decide, by decide⟩

/-- Claim C7, witness: the amended statement instantiated on stC7. -/
theorem c7_witness :
    handleMessage hash0 0 stC7 [] msgC7 addr0 =
      some ({ stC7 with
              table := { thisNode := stC7.table.thisNode,
                         buckets := stC7.table.buckets.set
                           (leadingZeros128 (Kadht.distance stC7.table.thisNode.id 2))
                           { bC7 with data := [mkNode 3] ++ [{ id := 2, udpAddr := addr0 }] } },
              keepAlives := (ttRemove stC7.keepAlives 9).2 }, [], []) :=
  c7_ping_resp_moves_oldest_to_back hash0 0 stC7 [] msgC7 addr0 bC7 (mkNode 2)
    [mkNode 3] rfl (by decide) (by decide) rfl rfl rfl

/-- handle_client never changes the server state, whatever the command. -/
theorem handleClient_fst (st : ServerHandle) (cmd : Option ToServerMsg) :
    (handleClient st cmd).1 = st := by
  cases cmd with
  | none => rfl
  | some c => cases c <;> rfl

/-- If no lookup is running, handle_message leaves the lookup absent and
sends no FindNode or FindValue request. -/
theorem handleMessage_no_query_preserved
    (fromHash : ByteStr → Nat) (fuel : Nat) (st st' : ServerHandle)
    (txs txs' : List Nat) (msg : Message) (src : SocketAddr)
    (sent : List (Message × SocketAddr))
    (hq : st.query = none)
    (hrun : handleMessage fromHash fuel st txs msg src = some (st', txs', sent)) :
    st'.query = none ∧ ∀ ms ∈ sent, isLookupRequest ms.1.payload = false := by
  obtain ⟨⟨nid, tid⟩, payload⟩ := msg
  simp only [handleMessage] at hrun
  cases hins : st.table.insert { id := nid, udpAddr := src } with
  | none =>
    rw [hins] at hrun
    simp at hrun
  | some pr =>
    obtain ⟨t1, ins⟩ := pr
    rw [hins] at hrun
    cases ins <;> cases payload <;>
      simp only [hq, handleNodes_no_query, Option.some.injEq, Prod.mk.injEq] at hrun <;>
      try (repeat' split at hrun)
    all_goals
      try simp only [Option.some.injEq, Prod.mk.injEq] at hrun
    all_goals
      first
        | exact hrun.elim
        | exact Option.noConfusion hrun
        | (obtain ⟨h1, h2, h3⟩ := hrun
           subst h1
           subst h3
           exact ⟨by simp [hq],
             by simp [isLookupRequest, Message.response, Message.create]⟩)

/-- If no lookup is running, the stale sweep leaves the lookup absent and
sends nothing. -/
theorem removeStale_no_query (st st1 : ServerHandle) (staleQ staleKA : List Nat)
    (txs txs1 : List Nat) (sent : List (Message × SocketAddr))
    (hq : st.query = none)
    (hrun : removeStaleStep st staleQ staleKA txs = some (st1, txs1, sent)) :
    st1.query = none ∧ sent = [] := by
  simp only [removeStaleStep, hq] at hrun
  split at hrun
  · exact Option.noConfusion hrun
  · simp only [Option.some.injEq, Prod.mk.injEq] at hrun
    obtain ⟨h1, -, h3⟩ := hrun
    subst h1
    subst h3
    exact ⟨by simp [hq], rfl⟩

/-- If no lookup is running, one event-loop tick leaves the lookup absent
and sends no FindNode or FindValue request. -/
theorem loopIter_no_query (fromHash : ByteStr → Nat) (fuel : Nat)
    (st st1 : ServerHandle) (txs txs1 : List Nat) (inp : LoopInput)
    (sent : List (Message × SocketAddr)) (out : List FromServerMsg)
    (hq : st.query = none)
    (hrun : loopIter fromHash fuel st txs inp = some (st1, txs1, sent, out)) :
    st1.query = none ∧ ∀ ms ∈ sent, isLookupRequest ms.1.payload = false := by
  obtain ⟨inb, staleQ, staleKA, cmd⟩ := inp
  simp only [loopIter] at hrun
  cases inb with
  | none =>
    simp only [Option.some.injEq] at hrun
    split at hrun
    · exact Option.noConfusion hrun
    case _ stA txsA sentA heqA =>
      simp only [Option.some.injEq, Prod.mk.injEq] at hrun
      obtain ⟨h1, -, h3, h4⟩ := hrun
      obtain ⟨hA, hB⟩ := removeStale_no_query st stA staleQ staleKA txs txsA sentA hq heqA
      subst h3
      rw [← h1, handleClient_fst]
      refine ⟨hA, ?_⟩
      subst hB
      simp
  | some ms =>
    split at hrun
    · exact Option.noConfusion hrun
    case _ stM txsM sentM heqM =>
      split at hrun
      · exact Option.noConfusion hrun
      case _ stA txsA sentA heqA =>
        simp only [Option.some.injEq, Prod.mk.injEq] at hrun
        obtain ⟨h1, -, h3, h4⟩ := hrun
        obtain ⟨hM1, hM2⟩ := handleMessage_no_query_preserved fromHash fuel st stM
          txs txsM ms.1 ms.2 sentM hq heqM
        obtain ⟨hA, hB⟩ := removeStale_no_query stM stA staleQ staleKA txsM txsA
          sentA hM1 heqA
        subst h3
        rw [← h1, handleClient_fst]
        refine ⟨hA, ?_⟩
        subst hB
        intro x hx
        rcases List.mem_append.mp hx with hx | hx
        · exact hM2 x hx
        · simp at hx

/-- If no lookup is running, any run of the event loop keeps the lookup
absent and never sends a FindNode or FindValue request. -/
theorem runLoop_no_query (fromHash : ByteStr → Nat) (fuel : Nat) :
    ∀ (inps : List LoopInput) (st : ServerHandle) (txs : List Nat)
      (st' : ServerHandle) (sent : List (Message × SocketAddr))
      (out : List FromServerMsg),
    st.query = none →
    runLoop fromHash fuel st txs inps = some (st', sent, out) →
    st'.query = none ∧ ∀ ms ∈ sent, isLookupRequest ms.1.payload = false
  | [], st, txs, st', sent, out, hq, hrun => by
    simp only [runLoop, Option.some.injEq, Prod.mk.injEq] at hrun
    obtain ⟨h1, h2, -⟩ := hrun
    subst h1
    subst h2
    exact ⟨hq, by simp⟩
  | inp :: rest, st, txs, st', sent, out, hq, hrun => by
    simp only [runLoop] at hrun
    split at hrun
    · exact Option.noConfusion hrun
    case _ st1 txs1 sent1 out1 heq1 =>
      split at hrun
      · exact Option.noConfusion hrun
      case _ st2 sent2 out2 heq2 =>
        simp only [Option.some.injEq, Prod.mk.injEq] at hrun
        obtain ⟨h1, h2, -⟩ := hrun
        subst h1
        subst h2
        obtain ⟨hA, hB⟩ := loopIter_no_query fromHash fuel st st1 txs txs1 inp
          sent1 out1 hq heq1
        obtain ⟨hC, hD⟩ := runLoop_no_query fromHash fuel rest st1 txs1 st2
          sent2 out2 hA heq2
        refine ⟨hC, ?_⟩
        intro x hx
        rcases List.mem_append.mp hx with hx | hx
        · exact hB x hx
        · exact hD x hx

/-- Claim C4: from start-up the current lookup is always None — no operator
command and no inbound message ever creates one — and consequently every
message the node sends across any run of the event loop is a response or a
keep-alive Ping, never a self-initiated FindNode or FindValue request. -/
theorem c4_no_lookup_is_ever_created (fromHash : ByteStr → Nat) (fuel : Nat)
    (thisNode : Node) (txs : List Nat) (inps : List LoopInput)
    (st' : ServerHandle) (sent : List (Message × SocketAddr))
    (out : List FromServerMsg)
    (hrun : runLoop fromHash fuel (initState thisNode) txs inps = some (st', sent, out)) :
    st'.query = none ∧ ∀ ms ∈ sent, isLookupRequest ms.1.payload = false :=
  runLoop_no_query fromHash fuel inps (initState thisNode) txs st' sent out rfl hrun

/-- Claim C4, witness: the empty run from the initial state of the node
with id 0. -/
theorem c4_witness :
    (initState (mkNode 0)).query = none ∧
    ∀ ms ∈ ([] : List (Message × SocketAddr)), isLookupRequest ms.1.payload = false :=
  c4_no_lookup_is_ever_created hash0 0 (mkNode 0) [] [] (initState (mkNode 0)) [] [] rfl

/-- Claim C1: the claim states that k_closest always terminates normally and
returns min(k, all known peers including the local node) nodes, each first
loop iteration clearing the selected bit. The code violates it: on the empty
routing table of the node with id 0, with target 1 and k = 1, the first
traversal loop never exits — for any fuel the run is a panic or fuel
exhaustion, and with ample fuel it is precisely the panic of the overflowing
shift 1 <<< 128 — whereas the claim promises the singleton list holding
the local node. -/
theorem c1_k_closest_diverges :
    (∀ fuel, (table0.kClosestFuel fuel 1 1).isOk = false) ∧
    table0.kClosestFuel 200 1 1 = LoopRes.panicked := by
  constructor
  · intro fuel
    have hd : Kadht.distance 0 1 = 1 := rfl
    unfold RoutingTable.kClosestFuel table0 RoutingTable.new
    simp only [mkNode, hd, KEY_SIZE]
    rcases loop1_empty 20 1 fuel 1 [] one_ne_zero (by norm_num) with h1 | h1 <;>
      rw [h1] <;> rfl
  · decide

end Kadht
